import Mathlib

/-!
Shallow embedding of `drmdumbfbtest` (the double-buffered variant,
`doublebuffer/main.cpp`) and proofs about it.

The embedding models:
* `Framebuffer` / `Output` — the `Device::Framebuffer` and `Device::Output`
  structs (a `void *p` that may be `MAP_FAILED` becomes `Option Nat`);
* `createFramebuffer` / `createFramebuffers` — buffer allocation, with the
  kernel's ioctl replies supplied as an oracle (`KernelCreateResults`);
* `destroyFramebuffer` — buffer teardown, recording the kernel calls it makes
  and the warnings it reports;
* `swapBuffers` / `pageFlipHandler` — the flip protocol: the drm event queue is
  modelled by a schedule (the list of output indices whose completion events
  `drmHandleEvent` delivers, in order), and an event can only be delivered for
  an output whose flip request is actually in flight;
* `update` — the timer tick of `DumbBufferRenderer::update`, recording which
  outputs have their back buffer written;
* `setMode`, the renderer constructor and `main`'s exit code.
-/

namespace DrmDumbFb

/-- Models `static const int BUFFER_COUNT = 2`. -/
def BUFFER_COUNT : Nat := 2

/-- Models `Device::Framebuffer`. Here `p` is the mmap result: `some addr` when mapped,
`none` for the `MAP_FAILED` sentinel. -/
structure Framebuffer where
  handle : Nat
  pitch : Nat
  size : Nat
  fb : Nat
  p : Option Nat
  deriving Repr, DecidableEq

/-- The `Framebuffer()` default constructor:
`handle(0), pitch(0), size(0), fb(0), p(MAP_FAILED)`. -/
def Framebuffer.init : Framebuffer :=
  { handle := 0, pitch := 0, size := 0, fb := 0, p := none }

instance : Inhabited Framebuffer := ⟨Framebuffer.init⟩

/-- The externally supplied per-output descriptor: the fields of `QKmsOutput`
that the program reads (connector id, crtc id, chosen mode geometry) plus the
`mode_set` flag that `setMode` writes. -/
structure KmsOutput where
  connectorId : Nat
  crtcId : Nat
  modeW : Nat
  modeH : Nat
  mode_set : Bool
  deriving Repr, DecidableEq

/-- Models `Device::Output`. The C++ member `Framebuffer fb[2]` is modelled as a list
(created with length 2 by the constructor); `backFb` and `flipped` are
initialized by `Output() : backFb(0), flipped(false)`. -/
structure Output where
  kmsOutput : KmsOutput
  fb : List Framebuffer
  backFb : Nat
  flipped : Bool
  deriving Repr, DecidableEq

/-- Models `Device::createScreen`: it appends a default-constructed `Output` holding the
discovered `QKmsOutput`: `backFb = 0`, `flipped = false`, both framebuffer
slots default-constructed. -/
def mkOutput (kms : KmsOutput) : Output :=
  { kmsOutput := kms
    fb := [Framebuffer.init, Framebuffer.init]
    backFb := 0
    flipped := false }

instance : Inhabited Output :=
  ⟨mkOutput { connectorId := 0, crtcId := 0, modeW := 0, modeH := 0, mode_set := false }⟩

/-- The kernel's reply to `DRM_IOCTL_MODE_CREATE_DUMB`. -/
structure CreateDumbReply where
  handle : Nat
  pitch : Nat
  size : Nat
  deriving Repr, DecidableEq

/-- Oracle for the four fallible kernel steps of one `createFramebuffer` call:
`none` means the step fails. `addFB` carries the fb id returned through
`drmModeAddFB`, `mapDumb` the mmap offset, `mmapResult` the mapped address
(`none` = `MAP_FAILED`). -/
structure KernelCreateResults where
  createDumb : Option CreateDumbReply
  addFB : Option Nat
  mapDumb : Option Nat
  mmapResult : Option Nat
  deriving Repr, DecidableEq

/-- Models `Device::createFramebuffer(output, bufferIdx)` acting on the slot's current
`Framebuffer` value `b`, mirroring the mutation order of the source: record
handle/pitch/size as soon as `CREATE_DUMB` succeeds, record the fb id as soon
as `drmModeAddFB` succeeds, store the mmap result last. Each failing step
returns `false` immediately, leaving the fields written so far in place. -/
def createFramebuffer (k : KernelCreateResults) (b : Framebuffer) :
    Bool × Framebuffer :=
  match k.createDumb with
  | none => (false, b)
  | some creq =>
    let b1 := { b with handle := creq.handle, pitch := creq.pitch, size := creq.size }
    match k.addFB with
    | none => (false, b1)
    | some fbId =>
      let b2 := { b1 with fb := fbId }
      match k.mapDumb with
      | none => (false, b2)
      | some _offset =>
        match k.mmapResult with
        | none => (false, { b2 with p := none })
        | some addr => (true, { b2 with p := some addr })

/-- Inner loop of `Device::createFramebuffers`: allocate slots `i, i+1, …`
of one output while `createFramebuffer` keeps succeeding; `n` counts the
remaining iterations of `for (int i = 0; i < BUFFER_COUNT; ++i)`. -/
def createFbsAux (kr : Nat → KernelCreateResults) : Nat → Nat → Output → Bool × Output
  | _, 0, o => (true, o)
  | i, n + 1, o =>
    let r := createFramebuffer (kr i) (o.fb.getD i Framebuffer.init)
    let o2 := { o with fb := o.fb.set i r.2 }
    if r.1 then createFbsAux kr (i + 1) n o2 else (false, o2)

/-- Both slots of one output, `for (int i = 0; i < BUFFER_COUNT; ++i)`. -/
def createFbsForOutput (kr : Nat → KernelCreateResults) (o : Output) : Bool × Output :=
  createFbsAux kr 0 BUFFER_COUNT o

/-- Outer loop of `Device::createFramebuffers` over output indices. A failed
`createFramebuffer` makes the C++ function `return`, abandoning the remaining
slots and the remaining outputs; on success the output's `backFb` is reset to 0
and `flipped` to false. -/
def createFramebuffersGo (kr : Nat → Nat → KernelCreateResults) :
    List Nat → List Output → List Output
  | [], outs => outs
  | oi :: rest, outs =>
    match outs[oi]? with
    | none => outs
    | some o =>
      let r := createFbsForOutput (kr oi) o
      if r.1 then
        createFramebuffersGo kr rest
          (outs.set oi { r.2 with backFb := 0, flipped := false })
      else
        outs.set oi r.2

/-- Models `Device::createFramebuffers`; `kr oi i` is the kernel's reply set for
output `oi`, slot `i`. -/
def createFramebuffers (kr : Nat → Nat → KernelCreateResults)
    (outs : List Output) : List Output :=
  createFramebuffersGo kr (List.range outs.length) outs

/-- Kernel calls issued by `Device::destroyFramebuffer`. -/
inductive KernelCall where
  | munmap (size : Nat)
  | rmFB (fb : Nat)
  | destroyDumb (handle : Nat)
  deriving Repr, DecidableEq

/-- Result of one `destroyFramebuffer` call: the slot's new state, the kernel
calls made (in order), and the calls whose failure was reported with
`qErrnoWarning`. -/
structure DestroyResult where
  fb : Framebuffer
  calls : List KernelCall
  warnings : List KernelCall
  deriving Repr, DecidableEq

/-- Models `Device::destroyFramebuffer` acting on the slot value `b`; `res c = false`
means kernel call `c` fails. Unmap if mapped (its result is not checked, so a
failing munmap produces no warning), remove the fb if registered (warn on
failure), destroy the dumb buffer if the handle is set (warn on failure), then
reset the slot with `fb = Framebuffer()`. Every step runs regardless of the
previous steps' results. -/
def destroyFramebuffer (res : KernelCall → Bool) (b : Framebuffer) : DestroyResult :=
  let unmapCalls : List KernelCall := if b.p.isSome then [.munmap b.size] else []
  let rmCalls : List KernelCall := if b.fb ≠ 0 then [.rmFB b.fb] else []
  let rmWarns : List KernelCall :=
    if b.fb ≠ 0 ∧ res (.rmFB b.fb) = false then [.rmFB b.fb] else []
  let destroyCalls : List KernelCall := if b.handle ≠ 0 then [.destroyDumb b.handle] else []
  let destroyWarns : List KernelCall :=
    if b.handle ≠ 0 ∧ res (.destroyDumb b.handle) = false then [.destroyDumb b.handle] else []
  { fb := Framebuffer.init
    calls := unmapCalls ++ rmCalls ++ destroyCalls
    warnings := rmWarns ++ destroyWarns }

/-- State of the flip protocol: the device's outputs plus the list of output
indices with a submitted, not yet acknowledged page-flip request (the
`user_data` back-references of the flips posted with `drmModePageFlip` whose
`DRM_MODE_PAGE_FLIP_EVENT` has not yet been handled). -/
structure SysState where
  outs : List Output
  inflight : List Nat
  deriving Repr, DecidableEq

/-- The `backFb` of output `i` (0 when `i` is out of range). -/
def getBackFb (s : SysState) (i : Nat) : Nat :=
  ((s.outs[i]?).map Output.backFb).getD 0

/-- The `flipped` flag of output `i` (false when `i` is out of range). -/
def getFlipped (s : SysState) (i : Nat) : Bool :=
  ((s.outs[i]?).map Output.flipped).getD false

/-- Models `Device::pageFlipHandler` acting on the output its `user_data` points to:
`output->backFb = (output->backFb + 1) % BUFFER_COUNT`. -/
def pageFlipHandler (o : Output) : Output :=
  { o with backFb := (o.backFb + 1) % BUFFER_COUNT }

/-- One call to `drmHandleEvent` that reads the completion event of output
`e`'s flip and dispatches `pageFlipHandler` on it. The kernel only produces a
completion event for a request actually in flight, so delivery for an output
with no outstanding request is impossible (`none`); handling the event
acknowledges (removes) that request. -/
def handleEvent (s : SysState) (e : Nat) : Option SysState :=
  if e ∈ s.inflight then
    match s.outs[e]? with
    | some o => some { outs := s.outs.set e (pageFlipHandler o), inflight := s.inflight.erase e }
    | none => none
  else
    none

/-- The demultiplexing wait of `Device::swapBuffers`:
`while (output->backFb == fbIdx) drmHandleEvent(fd(), &drmEvent);` for output
`t`, where `fbIdx` is `backFb` captured before the loop. `sched` lists the
outputs whose completion events the kernel delivers, in order; when it is
exhausted (or names an output with no request in flight, which the kernel
never completes) while the loop condition still holds, the blocking read never
returns: `none`. -/
def waitLoop (t fbIdx : Nat) : SysState → List Nat → Option SysState
  | s, sched =>
    if getBackFb s t = fbIdx then
      match sched with
      | [] => none
      | e :: rest =>
        match handleEvent s e with
        | none => none
        | some s2 => waitLoop t fbIdx s2 rest
    else
      some s

/-- Models `Device::swapBuffers(output)` for output index `t`. If `flipped`, run the
demultiplexing wait until this output's `backFb` moves (consuming completion
events per `sched`); otherwise set `flipped = true`. Then submit
`drmModePageFlip` for `fb[backFb]`: on success (`flipOk`) the request joins the
in-flight set, on failure the function warns and returns with no request
submitted. `none` means the wait blocks forever. -/
def swapBuffers (t : Nat) (sched : List Nat) (flipOk : Bool) (s : SysState) :
    Option SysState :=
  let afterWait : Option SysState :=
    if getFlipped s t then
      waitLoop t (getBackFb s t) s sched
    else
      match s.outs[t]? with
      | some o => some { s with outs := s.outs.set t { o with flipped := true } }
      | none => some s
  match afterWait with
  | none => none
  | some s2 =>
    if flipOk then some { s2 with inflight := t :: s2.inflight }
    else some s2

/-- The loop body of `DumbBufferRenderer::update` over the remaining output
indices. For each output: read `fb[backFb].p`; skip the output if it is
`MAP_FAILED`; otherwise write the test pattern into the mapped buffer (recorded
as the output's index in the returned write list) and call `swapBuffers`.
`flipOk i` and `sched i` are the submission result and event schedule of output
`i`'s `swapBuffers` call this tick. If a `swapBuffers` call blocks forever, the
tick never finishes (`none`), with the writes made so far recorded. -/
def updateLoop (flipOk : Nat → Bool) (sched : Nat → List Nat) :
    List Nat → SysState → List Nat × Option SysState
  | [], s => ([], some s)
  | i :: rest, s =>
    let o := s.outs.getD i default
    match (o.fb.getD o.backFb Framebuffer.init).p with
    | none => updateLoop flipOk sched rest s
    | some _ =>
      match swapBuffers i (sched i) (flipOk i) s with
      | none => ([i], none)
      | some s2 =>
        let r := updateLoop flipOk sched rest s2
        (i :: r.1, r.2)

/-- One timer tick, `DumbBufferRenderer::update`: iterate over all outputs in
order. Returns the indices of the outputs whose back buffer was written this
tick and the resulting state (`none` if the tick blocked forever). -/
def update (flipOk : Nat → Bool) (sched : Nat → List Nat) (s : SysState) :
    List Nat × Option SysState :=
  updateLoop flipOk sched (List.range s.outs.length) s

/-- Models `Device::setMode`: for each output in order call `drmModeSetCrtc` with
slot 0's fb; on failure warn and `return` (the remaining outputs are never
mode-set); on success record `mode_set = true`. `crtcOk i` is the result of
output `i`'s `drmModeSetCrtc` call. -/
def setModeGo (crtcOk : Nat → Bool) : List Nat → List Output → List Output
  | [], outs => outs
  | oi :: rest, outs =>
    match outs[oi]? with
    | none => outs
    | some o =>
      if crtcOk oi then
        setModeGo crtcOk rest
          (outs.set oi { o with kmsOutput := { o.kmsOutput with mode_set := true } })
      else
        outs

/-- Models `Device::setMode` over all outputs. -/
def setMode (crtcOk : Nat → Bool) (outs : List Output) : List Output :=
  setModeGo crtcOk (List.range outs.length) outs

/-- State of `DumbBufferRenderer` after its constructor ran. -/
structure Renderer where
  deviceOpen : Bool
  state : SysState
  timerStarted : Bool
  deriving Repr, DecidableEq

/-- The `DumbBufferRenderer` constructor: open the device (if that fails, warn
and return with nothing else done — the timer is never started); otherwise
discover the outputs (`createScreens`, appending one default `Output` per
descriptor), allocate the framebuffers, do the modesetting and start the
16 ms timer. -/
def rendererCtor (openOk : Bool) (descs : List KmsOutput)
    (kr : Nat → Nat → KernelCreateResults) (crtcOk : Nat → Bool) : Renderer :=
  if openOk then
    let outs := descs.map mkOutput
    let outs := createFramebuffers kr outs
    let outs := setMode crtcOk outs
    { deviceOpen := true, state := { outs := outs, inflight := [] }, timerStarted := true }
  else
    { deviceOpen := false, state := { outs := [], inflight := [] }, timerStarted := false }

/-- Models `main`'s exit code. The function `main` constructs the renderer (whose constructor
absorbs every failure: device open, allocation and mode-set failures only
shape the renderer's state), arms `QTimer::singleShot(t * 1000, &app,
&QCoreApplication::quit)` and returns `app.exec()`. The only thing that ends
the event loop is that `quit()` call, and `quit()` is `exit(0)`, so `exec`
returns 0 on every run that terminates. -/
def mainExitCode (openOk : Bool) (descs : List KmsOutput)
    (kr : Nat → Nat → KernelCreateResults) (crtcOk : Nat → Bool) : Nat :=
  let _r := rendererCtor openOk descs kr crtcOk
  0

/-- A `Framebuffer` is fully constructed when the allocation handle, the
presentation handle (`fb`), pitch and size are all set and the buffer is
mapped. -/
def fullyConstructed (b : Framebuffer) : Prop :=
  b.handle ≠ 0 ∧ b.pitch ≠ 0 ∧ b.size ≠ 0 ∧ b.fb ≠ 0 ∧ b.p.isSome

/-- A `Framebuffer` is fully torn down when it equals the default-constructed
value: all handles zero and the pointer the `MAP_FAILED` sentinel. -/
def tornDown (b : Framebuffer) : Prop :=
  b = Framebuffer.init

/-- A step of the running system: either one `swapBuffers` call on a valid
output (with some schedule of completion-event deliveries and some submission
result) or one full timer tick that ran to completion. -/
inductive Step : SysState → SysState → Prop where
  | swap (t : Nat) (sched : List Nat) (ok : Bool) {s s' : SysState}
      (ht : t < s.outs.length) (h : swapBuffers t sched ok s = some s') : Step s s'
  | tick (flipOk : Nat → Bool) (sched : Nat → List Nat) (ws : List Nat) {s s' : SysState}
      (h : update flipOk sched s = (ws, some s')) : Step s s'

/-- States reachable from `s₀` by any interleaving of `swapBuffers` calls and
completed timer ticks. -/
inductive Reachable : SysState → SysState → Prop where
  | refl (s : SysState) : Reachable s s
  | step {s₀ s s' : SysState} : Reachable s₀ s → Step s s' → Reachable s₀ s'

/-- The at-most-one-in-flight invariant: every output has at most one
unacknowledged flip request, and an output whose `flipped` flag is still false
has none. -/
def FlipInv (s : SysState) : Prop :=
  ∀ t, s.inflight.count t ≤ 1 ∧ (getFlipped s t = false → s.inflight.count t = 0)

/-- The slot-index invariant behind `output.fb[output.backFb]`: every output's
`backFb` is a valid index into its two-element slot array. -/
def SlotIndexOk (s : SysState) : Prop :=
  ∀ o ∈ s.outs, o.backFb < BUFFER_COUNT ∧ o.backFb < o.fb.length

/-- A mapped demo framebuffer pair for concrete runs. -/
def demoFb (n : Nat) : Framebuffer :=
  { handle := n + 1, pitch := 16, size := 48, fb := n + 10, p := some (n + 100) }

/-- A demo mode descriptor. -/
def demoKms : KmsOutput :=
  { connectorId := 1, crtcId := 2, modeW := 4, modeH := 3, mode_set := false }

/-- One fully allocated output whose `backFb` starts at `b` (as after
`createFramebuffers`, `flipped` is false and both slots are mapped). -/
def demoOutput (b : Nat) : Output :=
  { kmsOutput := demoKms, fb := [demoFb 0, demoFb 1], backFb := b, flipped := false }

/-- A single-output system about to start presenting, with initial slot `b`. -/
def oneOutputInit (b : Nat) : SysState :=
  { outs := [demoOutput b], inflight := [] }

/-- N successive `present` calls on the single output 0: each call is
`swapBuffers` with the kernel delivering that output's pending completion
event whenever the call has to wait. -/
def presentN : Nat → SysState → Option SysState
  | 0, s => some s
  | n + 1, s =>
    match swapBuffers 0 [0] true s with
    | none => none
    | some s2 => presentN n s2

/-- The steady state of the single-output run after at least one `present`
call: `flipped` is set and output 0's request is in flight, `backFb = c`. -/
def oneOutputSteady (c : Nat) : SysState :=
  { outs := [{ demoOutput c with flipped := true }], inflight := [0] }

/-- Kernel replies that make every step of one `createFramebuffer` call
succeed, with nonzero handle, pitch, size and fb id. -/
def goodK : KernelCreateResults :=
  { createDumb := some { handle := 5, pitch := 16, size := 48 }
    addFB := some 7, mapDumb := some 0, mmapResult := some 1000 }

/-- Kernel replies whose very first step (`DRM_IOCTL_MODE_CREATE_DUMB`)
fails. -/
def badK : KernelCreateResults :=
  { goodK with createDumb := none }

/-- Kernel reply oracle for three outputs where every allocation step succeeds
except that output 1's buffers cannot be created. -/
def krFail1 : Nat → Nat → KernelCreateResults :=
  fun oi _i => if oi = 1 then badK else goodK

/-- Three discovered outputs. -/
def descs3 : List KmsOutput :=
  List.replicate 3 demoKms

/-- The system right after `createFramebuffers` ran over three outputs with
output 1's allocation failing (`krFail1`). -/
def c7Start : SysState :=
  { outs := createFramebuffers krFail1 (descs3.map mkOutput), inflight := [] }

/-- The same three-output system when every allocation succeeded. -/
def c7StartAllGood : SysState :=
  { outs := createFramebuffers (fun _ _ => goodK) (descs3.map mkOutput), inflight := [] }

/-- Run `n` timer ticks, collecting the outputs written on each tick; stops
with `none` if a tick blocks forever. Every tick uses submission success and a
schedule that delivers output 0's completion event. -/
def ticksFrom (flipOk : Nat → Bool) (sched : Nat → List Nat) :
    Nat → SysState → List (List Nat) × Option SysState
  | 0, s => ([], some s)
  | n + 1, s =>
    match update flipOk sched s with
    | (ws, none) => ([ws], none)
    | (ws, some s2) =>
      let r := ticksFrom flipOk sched n s2
      (ws :: r.1, r.2)

/-- The C7 scenario ticks: all flip submissions succeed and the kernel always
delivers output 0's completion when asked. -/
def c7Ticks (n : Nat) : List (List Nat) × Option SysState :=
  ticksFrom (fun _ => true) (fun _ => [0]) n c7Start

/-- A two-output system where both outputs are fully allocated, about to start
presenting. -/
def twoOutputInit : SysState :=
  { outs := [demoOutput 0, demoOutput 0], inflight := [] }

/-- First tick of the C5 scenario: output 0's flip submission fails, output
1's succeeds. -/
def c5Tick1 : List Nat × Option SysState :=
  update (fun i => i != 0) (fun _ => []) twoOutputInit

/-- State after the first C5 tick. -/
def c5State1 : SysState :=
  c5Tick1.2.getD twoOutputInit

/-- Second tick of the C5 scenario: submissions would succeed and the kernel
delivers output 1's completion event (the only one that exists). -/
def c5Tick2 : List Nat × Option SysState :=
  update (fun _ => true) (fun _ => [1]) c5State1

/-- State of the C7 scenario after one tick. -/
def c7SA : SysState :=
  (update (fun _ => true) (fun _ => [0]) c7Start).2.getD c7Start

/-- State of the C7 scenario after two ticks. -/
def c7SB : SysState :=
  (update (fun _ => true) (fun _ => [0]) c7SA).2.getD c7Start

/-! ## Theorems -/

/-- Claim C6, counterexample: the claim says the exit code is non-zero when
device open fails, and non-zero when the initial mode set fails for all
outputs. In the code the exit code is 0 in both situations: the quit timer
ends the event loop with `exit(0)` no matter what failed. -/
theorem c6_counterexample :
    mainExitCode false descs3 (fun _ _ => goodK) (fun _ => true) = 0
    ∧ mainExitCode true descs3 (fun _ _ => goodK) (fun _ => false) = 0 :=
  ⟨rfl, rfl⟩

/-- Claim C6, amended: the process exit code is 0 on every run — clean
shutdown, device-open failure and mode-set failure alike — so no failure is
distinguishable from success by the exit code. -/
theorem c6_exit_code_always_zero (openOk : Bool) (descs : List KmsOutput)
    (kr : Nat → Nat → KernelCreateResults) (crtcOk : Nat → Bool) :
    mainExitCode openOk descs kr crtcOk = 0 :=
  rfl

/-- Claim C8: `destroyFramebuffer` is idempotent. A second call on a buffer
already torn down performs no kernel call (no munmap, no `drmModeRmFB`, no
`DRM_IOCTL_MODE_DESTROY_DUMB`), reports no warning, and leaves the buffer
state unchanged, whatever the kernel results of either call were. -/
theorem c8_destroy_idempotent (res res2 : KernelCall → Bool) (b : Framebuffer) :
    destroyFramebuffer res2 (destroyFramebuffer res b).fb =
      { fb := (destroyFramebuffer res b).fb, calls := [], warnings := [] } :=
  rfl

/-- Claim C9: `destroyFramebuffer` releases resources in the strict order
munmap, then `drmModeRmFB`, then `DRM_IOCTL_MODE_DESTROY_DUMB`, performing
each step exactly when the corresponding resource was acquired, and neither
the resulting buffer state nor the sequence of kernel calls depends on which
kernel calls fail — a failing step never prevents the later steps. -/
theorem c9_release_order (res res2 : KernelCall → Bool) (b : Framebuffer) :
    (destroyFramebuffer res b).calls.Sublist
        [KernelCall.munmap b.size, KernelCall.rmFB b.fb, KernelCall.destroyDumb b.handle]
    ∧ (KernelCall.munmap b.size ∈ (destroyFramebuffer res b).calls ↔ b.p.isSome = true)
    ∧ (KernelCall.rmFB b.fb ∈ (destroyFramebuffer res b).calls ↔ b.fb ≠ 0)
    ∧ (KernelCall.destroyDumb b.handle ∈ (destroyFramebuffer res b).calls ↔ b.handle ≠ 0)
    ∧ (destroyFramebuffer res b).calls = (destroyFramebuffer res2 b).calls
    ∧ (destroyFramebuffer res b).fb = (destroyFramebuffer res2 b).fb := by
  unfold destroyFramebuffer
  by_cases hp : b.p.isSome <;> by_cases hf : b.fb ≠ 0 <;> by_cases hh : b.handle ≠ 0 <;>
    simp [hp, hf, hh]

/-- Claim C4, counterexample: when `DRM_IOCTL_MODE_CREATE_DUMB` succeeds
(handle 5, pitch 16, size 48) but `drmModeAddFB` fails, `createFramebuffer`
returns with the buffer in a partial state — allocation handle set but no
presentation handle and no mapping — which is neither fully constructed nor
fully torn down, and nothing resets it before the call returns. -/
theorem c4_counterexample :
    (createFramebuffer { goodK with addFB := none } Framebuffer.init).1 = false
    ∧ ¬ fullyConstructed (createFramebuffer { goodK with addFB := none } Framebuffer.init).2
    ∧ ¬ tornDown (createFramebuffer { goodK with addFB := none } Framebuffer.init).2 := by
  refine ⟨rfl, ?_, ?_⟩
  · unfold fullyConstructed
    decide
  · unfold tornDown
    decide

/-- Claim C4, amended: a `createFramebuffer` call that returns success leaves
the buffer fully constructed (given that the kernel hands out nonzero handle,
pitch, size and fb id), and `destroyFramebuffer` always leaves it fully torn
down; but a `createFramebuffer` call that fails part-way leaves the partial
state in place until teardown. -/
theorem c4_full_or_torn (k : KernelCreateResults) (b : Framebuffer)
    (hcd : ∀ c, k.createDumb = some c → c.handle ≠ 0 ∧ c.pitch ≠ 0 ∧ c.size ≠ 0)
    (hfb : ∀ f, k.addFB = some f → f ≠ 0)
    (h : createFramebuffer k Framebuffer.init = (true, b)) :
    fullyConstructed b
    ∧ ∀ (res : KernelCall → Bool) (b0 : Framebuffer),
        tornDown (destroyFramebuffer res b0).fb := by
  constructor
  · rcases hc : k.createDumb with _ | creq
    · simp [createFramebuffer, hc] at h
    · rcases ha : k.addFB with _ | fbId
      · simp [createFramebuffer, hc, ha] at h
      · rcases hm : k.mapDumb with _ | off
        · simp [createFramebuffer, hc, ha, hm] at h
        · rcases hmm : k.mmapResult with _ | addr
          · simp [createFramebuffer, hc, ha, hm, hmm] at h
          · simp only [createFramebuffer, hc, ha, hm, hmm] at h
            obtain ⟨hc1, hc2, hc3⟩ := hcd creq hc
            have hf := hfb fbId ha
            injection h with h1 h2
            subst h2
            exact ⟨hc1, hc2, hc3, hf, rfl⟩
  · intro res b0
    rfl

/-- Claim C4 witness: the successful allocation with the demo kernel replies
produces a fully constructed buffer. -/
theorem c4_full_or_torn_witness :
    fullyConstructed { handle := 5, pitch := 16, size := 48, fb := 7, p := some 1000 }
    ∧ ∀ (res : KernelCall → Bool) (b0 : Framebuffer),
        tornDown (destroyFramebuffer res b0).fb :=
  c4_full_or_torn goodK _
    (fun c hc => by injection hc with h1; subst h1; decide)
    (fun f hf => by injection hf with h1; subst h1; decide)
    rfl

/-- Claim C1, counterexample: one `present` call on an output whose
`activeSlot` starts at 0 leaves `activeSlot` at 0, not at `0 xor (1 mod 2)
 = 1` as the claim states — the first call submits a flip but the rotation
only happens when that flip's completion is consumed, which is during the
next call. -/
theorem c1_counterexample :
    (presentN 1 (oneOutputInit 0)).map (fun s => getBackFb s 0) = some 0
    ∧ (0 : Nat) ≠ 0 ^^^ (1 % 2) := by
  exact ⟨rfl, by decide⟩

/-- The first `present` call never waits (`flipped` is still false): it only
marks `flipped`, submits the flip and leaves `backFb` untouched. -/
theorem swapBuffers_first (b : Nat) :
    swapBuffers 0 [0] true (oneOutputInit b) = some (oneOutputSteady b) :=
  rfl

/-- Every later `present` call consumes the pending completion (rotating
`backFb` to the other slot) and submits the next flip. -/
theorem swapBuffers_steady (c : Nat) (hc : c < 2) :
    swapBuffers 0 [0] true (oneOutputSteady c) = some (oneOutputSteady ((c + 1) % 2)) := by
  interval_cases c <;> rfl

/-- Running `n` further `present` calls from the steady state flips the slot
`n` times. -/
theorem presentN_steady (n : Nat) : ∀ c, c < 2 →
    presentN n (oneOutputSteady c) = some (oneOutputSteady (c ^^^ (n % 2))) := by
  induction n with
  | zero =>
    intro c _
    simp [presentN]
  | succ n ih =>
    intro c hc
    have h1 := swapBuffers_steady c hc
    have h2 := ih ((c + 1) % 2) (Nat.mod_lt _ (by decide))
    have h3 : (c + 1) % 2 ^^^ n % 2 = c ^^^ (n + 1) % 2 := by
      rcases Nat.mod_two_eq_zero_or_one n with hn | hn
      · have hn1 : (n + 1) % 2 = 1 := by omega
        rw [hn, hn1]
        interval_cases c <;> decide
      · have hn1 : (n + 1) % 2 = 0 := by omega
        rw [hn, hn1]
        interval_cases c <;> decide
    rw [presentN, h1]
    show presentN n (oneOutputSteady ((c + 1) % 2)) = _
    rw [h2, h3]

/-- Claim C1, amended: for a sequence of `N ≥ 1` `present` calls on one
output whose `activeSlot` starts at `b`, the slot after the calls is
`b xor ((N - 1) mod 2)`: the first call leaves the slot unchanged (its
rotation is deferred to the completion consumed by the next call), and every
later call rotates it to the other index, so the post-call values alternate
strictly from the second call on. -/
theorem c1_slot_rotation (b : Nat) (hb : b < 2) (N : Nat) (hN : 1 ≤ N) :
    (presentN N (oneOutputInit b)).map (fun s => getBackFb s 0)
      = some (b ^^^ ((N - 1) % 2)) := by
  obtain ⟨n, rfl⟩ : ∃ n, N = n + 1 := ⟨N - 1, (Nat.succ_pred_eq_of_pos hN).symm⟩
  have h0 := swapBuffers_first b
  have h1 := presentN_steady n b hb
  rw [presentN, h0]
  show (presentN n (oneOutputSteady b)).map (fun s => getBackFb s 0) = _
  rw [h1]
  simp [getBackFb, oneOutputSteady, demoOutput]

/-- Claim C1 witness: three `present` calls starting from slot 0 end with
slot `0 xor (2 mod 2) = 0`. -/
theorem c1_slot_rotation_witness :
    (presentN 3 (oneOutputInit 0)).map (fun s => getBackFb s 0)
      = some (0 ^^^ ((3 - 1) % 2)) :=
  c1_slot_rotation 0 (by decide) 3 (by decide)

/-- Claim C3: while `swapBuffers` is blocked waiting for output `A`, a
completion event arriving for a different output `B` (whose request is in
flight) is processed in place: `B`'s `backFb` rotates to the other index the
moment its event is handled, `A`'s slot is untouched so the wait condition
still holds, and the wait loop goes on consuming the remaining events. -/
theorem c3_demux_other_output (s : SysState) (A B fbIdx : Nat) (rest : List Nat)
    (oB : Output)
    (hwait : getBackFb s A = fbIdx)
    (hB : s.outs[B]? = some oB)
    (hne : B ≠ A)
    (hinf : B ∈ s.inflight) :
    waitLoop A fbIdx s (B :: rest)
      = waitLoop A fbIdx
          { outs := s.outs.set B (pageFlipHandler oB), inflight := s.inflight.erase B } rest
    ∧ getBackFb { outs := s.outs.set B (pageFlipHandler oB),
                  inflight := s.inflight.erase B } B = (getBackFb s B + 1) % BUFFER_COUNT
    ∧ getBackFb { outs := s.outs.set B (pageFlipHandler oB),
                  inflight := s.inflight.erase B } A = fbIdx := by
  have hBlt : B < s.outs.length := by
    by_contra hnot
    rw [List.getElem?_eq_none (Nat.le_of_not_lt hnot)] at hB
    exact Option.noConfusion hB
  have hE : handleEvent s B
      = some { outs := s.outs.set B (pageFlipHandler oB), inflight := s.inflight.erase B } := by
    simp [handleEvent, hinf, hB]
  refine ⟨?_, ?_, ?_⟩
  · rw [waitLoop, if_pos hwait]
    show (match handleEvent s B with
          | none => none
          | some s2 => waitLoop A fbIdx s2 rest) = _
    rw [hE]
  · simp [getBackFb, List.getElem?_set_eq_of_lt _ hBlt, pageFlipHandler, hB]
  · simpa [getBackFb, List.getElem?_set_ne hne] using hwait

/-- Claim C3 witness: with outputs 0 and 1 both in flight and the wait loop
blocked on output 0 at slot 0, handling output 1's completion rotates output
1 to slot 1, leaves output 0 waiting, and the loop continues. -/
theorem c3_demux_other_output_witness :
    waitLoop 0 0
        { outs := [{ demoOutput 0 with flipped := true }, { demoOutput 0 with flipped := true }]
          inflight := [1, 0] } [1]
      = waitLoop 0 0
          { outs := List.set
              [{ demoOutput 0 with flipped := true }, { demoOutput 0 with flipped := true }] 1
              (pageFlipHandler { demoOutput 0 with flipped := true })
            inflight := List.erase [1, 0] 1 } []
    ∧ getBackFb
        { outs := List.set
            [{ demoOutput 0 with flipped := true }, { demoOutput 0 with flipped := true }] 1
            (pageFlipHandler { demoOutput 0 with flipped := true })
          inflight := List.erase [1, 0] 1 } 1
        = (getBackFb { outs := [{ demoOutput 0 with flipped := true },
                                { demoOutput 0 with flipped := true }]
                       inflight := [1, 0] } 1 + 1) % BUFFER_COUNT
    ∧ getBackFb
        { outs := List.set
            [{ demoOutput 0 with flipped := true }, { demoOutput 0 with flipped := true }] 1
            (pageFlipHandler { demoOutput 0 with flipped := true })
          inflight := List.erase [1, 0] 1 } 0 = 0 :=
  c3_demux_other_output _ 0 1 0 [] _ rfl rfl (by decide) (by decide)

/-- If the waited-for output has no request in flight, no deliverable event
can ever change its slot, so the wait loop never returns, whatever the kernel
delivers. -/
theorem waitLoop_blocked (t fbIdx : Nat) : ∀ (sched : List Nat) (s : SysState),
    getBackFb s t = fbIdx → t ∉ s.inflight → waitLoop t fbIdx s sched = none := by
  intro sched
  induction sched with
  | nil =>
    intro s hb _
    rw [waitLoop, if_pos hb]
  | cons e rest ih =>
    intro s hb hni
    rw [waitLoop, if_pos hb]
    show (match handleEvent s e with
          | none => none
          | some s2 => waitLoop t fbIdx s2 rest) = none
    by_cases hmem : e ∈ s.inflight
    · cases ho : s.outs[e]? with
      | none => simp [handleEvent, hmem, ho]
      | some o =>
        have hE : handleEvent s e = some
            { outs := s.outs.set e (pageFlipHandler o), inflight := s.inflight.erase e } := by
          simp [handleEvent, hmem, ho]
        rw [hE]
        have hnet : e ≠ t := fun h => hni (h ▸ hmem)
        apply ih
        · simpa [getBackFb, List.getElem?_set_ne hnet] using hb
        · intro hmem2
          exact hni (List.mem_of_mem_erase hmem2)
    · simp [handleEvent, hmem]

/-- Claim C5, counterexample: on the first tick output 0's flip submission
fails (output 1's succeeds), leaving only output 1's request in flight. The
second tick still writes output 0's back buffer — the output is not dropped —
and then blocks forever inside output 0's `swapBuffers` wait even while output
1's completion is delivered, so frame production stops for every output. -/
theorem c5_counterexample :
    c5Tick1 = ([0, 1], some c5State1)
    ∧ c5State1.inflight = [1]
    ∧ c5Tick2 = ([0], none) :=
  ⟨rfl, rfl, rfl⟩

/-- Claim C5, amended: after a flip submission failure the output is not
dropped from frame production — its `flipped` flag stays true while no request
of its own is in flight, so every subsequent `swapBuffers` call on it blocks
forever (for every possible sequence of delivered completion events), stalling
the single-threaded frame loop for all outputs. -/
theorem c5_submission_failure_blocks (s : SysState) (t : Nat) (sched : List Nat) (ok : Bool)
    (hf : getFlipped s t = true) (hni : t ∉ s.inflight) :
    swapBuffers t sched ok s = none := by
  simp [swapBuffers, hf, waitLoop_blocked t (getBackFb s t) sched s rfl hni]

/-- Claim C5 witness: in the concrete two-output scenario after the failed
submission, output 0's next `swapBuffers` call blocks forever. -/
theorem c5_submission_failure_blocks_witness :
    getFlipped c5State1 0 = true
    ∧ 0 ∉ c5State1.inflight
    ∧ swapBuffers 0 [1] true c5State1 = none :=
  ⟨rfl, by decide, c5_submission_failure_blocks c5State1 0 [1] true rfl (by decide)⟩

/-- Claim C7, counterexample: with three outputs and output 1's allocation
failing, output 2 is left with no buffers at all — `createFramebuffers`
returns as soon as one `createFramebuffer` fails — even though output 2's own
kernel replies all succeed. A tick then writes only output 0, whereas with no
failure all three outputs are written: the failure does affect allocation and
frame production of another output. -/
theorem c7_counterexample :
    c7Start.outs[2]? = some (mkOutput demoKms)
    ∧ (update (fun _ => true) (fun _ => []) c7Start).1 = [0]
    ∧ (update (fun _ => true) (fun _ => []) c7StartAllGood).1 = [0, 1, 2] :=
  ⟨rfl, rfl, rfl⟩

/-- One tick of the C7 scenario from each of its three distinct states: the
initial state and the two steady states alternate, and each tick writes
exactly output 0. -/
theorem c7_tick_cycle :
    update (fun _ => true) (fun _ => [0]) c7Start = ([0], some c7SA)
    ∧ update (fun _ => true) (fun _ => [0]) c7SA = ([0], some c7SB)
    ∧ update (fun _ => true) (fun _ => [0]) c7SB = ([0], some c7SA) :=
  ⟨rfl, rfl, rfl⟩

/-- Every run of ticks from either steady state of the C7 scenario writes
exactly output 0 on every tick. -/
theorem c7_ticks_steady (n : Nat) : ∀ s, s = c7SA ∨ s = c7SB →
    (ticksFrom (fun _ => true) (fun _ => [0]) n s).1 = List.replicate n [0] := by
  induction n with
  | zero =>
    intro s _
    rfl
  | succ n ih =>
    intro s hs
    rcases hs with rfl | rfl
    · rw [ticksFrom, c7_tick_cycle.2.1]
      show [0] :: (ticksFrom (fun _ => true) (fun _ => [0]) n c7SB).1 = _
      rw [ih c7SB (Or.inr rfl)]
      rfl
    · rw [ticksFrom, c7_tick_cycle.2.2]
      show [0] :: (ticksFrom (fun _ => true) (fun _ => [0]) n c7SA).1 = _
      rw [ih c7SA (Or.inl rfl)]
      rfl

/-- Claim C7, amended: an allocation failure does not abort the process, but
it aborts the allocation loop, so it does affect the other outputs: every
output other than the failing one keeps exactly the buffers it had when the
failure happened — outputs allocated earlier stay fully allocated, outputs
later in the list never get buffers. In the concrete three-output scenario
(output 0 allocated, output 1 failed, output 2 never attempted), every
subsequent tick writes and presents output 0 and no other output, forever. -/
theorem c7_alloc_failure_isolation :
    (∀ (kr : Nat → Nat → KernelCreateResults) (outs : List Output) (oi : Nat)
        (rest : List Nat) (o : Output),
        outs[oi]? = some o →
        (createFbsForOutput (kr oi) o).1 = false →
        ∀ j, j ≠ oi → (createFramebuffersGo kr (oi :: rest) outs)[j]? = outs[j]?)
    ∧ (∀ n, (c7Ticks n).1 = List.replicate n [0]) := by
  constructor
  · intro kr outs oi rest o ho hfail j hj
    simp only [createFramebuffersGo, ho, hfail, if_neg, Bool.false_eq_true, reduceIte]
    exact List.getElem?_set_ne (Ne.symm hj)
  · intro n
    cases n with
    | zero => rfl
    | succ n =>
      unfold c7Ticks
      rw [ticksFrom, c7_tick_cycle.1]
      show [0] :: (ticksFrom (fun _ => true) (fun _ => [0]) n c7SA).1 = _
      rw [c7_ticks_steady n c7SA (Or.inl rfl)]
      rfl

/-- Claim C7 witness: in the three-output scenario, aborting at output 1
leaves output 2 exactly as it was (un-allocated). -/
theorem c7_alloc_failure_isolation_witness :
    (createFramebuffersGo krFail1 [1, 2] (descs3.map mkOutput))[2]?
      = (descs3.map mkOutput)[2]? :=
  c7_alloc_failure_isolation.1 krFail1 (descs3.map mkOutput) 1 [2] (mkOutput demoKms)
    rfl rfl 2 (by decide)

/-- An index with a `getElem?` hit is in range. -/
theorem lt_of_getElem?_some {α : Type} {l : List α} {i : Nat} {a : α}
    (h : l[i]? = some a) : i < l.length := by
  by_contra hnot
  rw [List.getElem?_eq_none (Nat.le_of_not_lt hnot)] at h
  exact Option.noConfusion h

/-- Characterization of a successful `drmHandleEvent` dispatch: the event
belonged to an in-flight request of a valid output, which got rotated and
acknowledged. -/
theorem handleEvent_some {s s' : SysState} {e : Nat} (h : handleEvent s e = some s') :
    ∃ o, e ∈ s.inflight ∧ s.outs[e]? = some o ∧
      s' = { outs := s.outs.set e (pageFlipHandler o), inflight := s.inflight.erase e } := by
  unfold handleEvent at h
  by_cases hmem : e ∈ s.inflight
  · rw [if_pos hmem] at h
    cases ho : s.outs[e]? with
    | none =>
      rw [ho] at h
      exact Option.noConfusion h
    | some o =>
      rw [ho] at h
      exact ⟨o, hmem, rfl, (Option.some.inj h).symm⟩
  · rw [if_neg hmem] at h
    exact Option.noConfusion h

/-- Handling one completion event does not change any output's `flipped`
flag. -/
theorem getFlipped_handleEvent {s s' : SysState} {e : Nat}
    (h : handleEvent s e = some s') : ∀ u, getFlipped s' u = getFlipped s u := by
  obtain ⟨o, _hmem, ho, rfl⟩ := handleEvent_some h
  intro u
  by_cases hu : e = u
  · subst hu
    have he := lt_of_getElem?_some ho
    simp [getFlipped, List.getElem?_set_eq_of_lt _ he, ho, pageFlipHandler]
  · simp [getFlipped, List.getElem?_set_ne hu]

/-- Handling one completion event preserves the number of outputs. -/
theorem handleEvent_length {s s' : SysState} {e : Nat}
    (h : handleEvent s e = some s') : s'.outs.length = s.outs.length := by
  obtain ⟨o, _, _, rfl⟩ := handleEvent_some h
  simp

/-- Any property closed under event handling survives the demultiplexing
wait. -/
theorem waitLoop_preserves (P : SysState → Prop)
    (hP : ∀ s e s', handleEvent s e = some s' → P s → P s') (t fbIdx : Nat) :
    ∀ (sched : List Nat) (s s' : SysState),
      P s → waitLoop t fbIdx s sched = some s' → P s' := by
  intro sched
  induction sched with
  | nil =>
    intro s s' hp h
    rw [waitLoop] at h
    split at h
    · exact Option.noConfusion h
    · exact Option.some.inj h ▸ hp
  | cons e rest ih =>
    intro s s' hp h
    rw [waitLoop] at h
    split at h
    · cases hE : handleEvent s e with
      | none =>
        rw [hE] at h
        exact Option.noConfusion h
      | some s2 =>
        rw [hE] at h
        exact ih s2 s' (hP s e s2 hE hp) h
    · exact Option.some.inj h ▸ hp

/-- The demultiplexing wait preserves the number of outputs. -/
theorem waitLoop_length {t fbIdx : Nat} {sched : List Nat} {s s' : SysState}
    (h : waitLoop t fbIdx s sched = some s') : s'.outs.length = s.outs.length :=
  waitLoop_preserves (fun u => u.outs.length = s.outs.length)
    (fun _ _ _ hE hp => (handleEvent_length hE).trans hp) t fbIdx sched s s' rfl h

/-- One `swapBuffers` call preserves the number of outputs. -/
theorem swapBuffers_length {t : Nat} {sched : List Nat} {ok : Bool} {s s' : SysState}
    (h : swapBuffers t sched ok s = some s') : s'.outs.length = s.outs.length := by
  unfold swapBuffers at h
  by_cases hf : getFlipped s t
  · rw [if_pos hf] at h
    cases hW : waitLoop t (getBackFb s t) s sched with
    | none =>
      rw [hW] at h
      exact Option.noConfusion h
    | some s2 =>
      rw [hW] at h
      replace h : (if ok = true then some { outs := s2.outs, inflight := t :: s2.inflight }
          else some s2) = some s' := h
      have h2 := waitLoop_length hW
      by_cases hok : ok = true
      · rw [if_pos hok] at h
        obtain rfl := Option.some.inj h
        exact h2
      · rw [if_neg hok] at h
        obtain rfl := Option.some.inj h
        exact h2
  · rw [if_neg hf] at h
    cases ho : s.outs[t]? with
    | none =>
      rw [ho] at h
      replace h : (if ok = true then some { outs := s.outs, inflight := t :: s.inflight }
          else some s) = some s' := h
      by_cases hok : ok = true
      · rw [if_pos hok] at h
        obtain rfl := Option.some.inj h
        rfl
      · rw [if_neg hok] at h
        obtain rfl := Option.some.inj h
        rfl
    | some o =>
      rw [ho] at h
      replace h : (if ok = true then
          some { outs := s.outs.set t { o with flipped := true }, inflight := t :: s.inflight }
          else some { outs := s.outs.set t { o with flipped := true }, inflight := s.inflight })
          = some s' := h
      by_cases hok : ok = true
      · rw [if_pos hok] at h
        obtain rfl := Option.some.inj h
        simp
      · rw [if_neg hok] at h
        obtain rfl := Option.some.inj h
        simp

/-- If the wait condition fails, the wait loop returns the state unchanged
whatever events are pending. -/
theorem waitLoop_exit {t fbIdx : Nat} {s : SysState} (h : ¬ getBackFb s t = fbIdx) :
    ∀ sched, waitLoop t fbIdx s sched = some s := by
  intro sched
  cases sched with
  | nil => rw [waitLoop, if_neg h]
  | cons e rest => rw [waitLoop, if_neg h]

/-- The demultiplexing wait keeps the at-most-one-in-flight invariant, leaves
every `flipped` flag unchanged, and — the crux — returns only once the waited
output's own completion has been consumed, so its request count is 0. -/
theorem waitLoop_flipinv (t fbIdx : Nat) : ∀ (sched : List Nat) (s s' : SysState),
    waitLoop t fbIdx s sched = some s' → FlipInv s → getBackFb s t = fbIdx →
    FlipInv s' ∧ s'.inflight.count t = 0 ∧ (∀ u, getFlipped s' u = getFlipped s u) := by
  intro sched
  induction sched with
  | nil =>
    intro s s' h hp hb
    rw [waitLoop, if_pos hb] at h
    exact Option.noConfusion h
  | cons e rest ih =>
    intro s s' h hp hb
    rw [waitLoop, if_pos hb] at h
    replace h : (match handleEvent s e with
        | none => none
        | some s2 => waitLoop t fbIdx s2 rest) = some s' := h
    cases hE : handleEvent s e with
    | none =>
      rw [hE] at h
      exact Option.noConfusion h
    | some s2 =>
      rw [hE] at h
      replace h : waitLoop t fbIdx s2 rest = some s' := h
      have hff2 := getFlipped_handleEvent hE
      obtain ⟨o, hmem, ho, rfl⟩ := handleEvent_some hE
      have hp2 : FlipInv
          { outs := s.outs.set e (pageFlipHandler o), inflight := s.inflight.erase e } := by
        intro u
        have hle : (s.inflight.erase e).count u ≤ s.inflight.count u :=
          (List.erase_sublist e s.inflight).count_le u
        refine ⟨le_trans hle (hp u).1, ?_⟩
        intro hfu
        have hfsu : getFlipped s u = false := by
          rw [← hff2 u]
          exact hfu
        have := (hp u).2 hfsu
        show (s.inflight.erase e).count u = 0
        omega
      by_cases hb2 : getBackFb
          { outs := s.outs.set e (pageFlipHandler o), inflight := s.inflight.erase e } t = fbIdx
      · obtain ⟨ha, hc, hf3⟩ := ih _ s' h hp2 hb2
        exact ⟨ha, hc, fun u => (hf3 u).trans (hff2 u)⟩
      · rw [waitLoop_exit hb2] at h
        obtain rfl := Option.some.inj h
        refine ⟨hp2, ?_, hff2⟩
        have het : e = t := by
          by_contra hne
          apply hb2
          rw [← hb]
          simp [getBackFb, List.getElem?_set_ne hne]
        subst het
        have h1 : s.inflight.count e ≤ 1 := (hp e).1
        have h2 : 0 < s.inflight.count e := List.count_pos_iff.mpr hmem
        show (s.inflight.erase e).count e = 0
        rw [List.count_erase_self]
        omega

/-- One `swapBuffers` call on a valid output preserves the
at-most-one-in-flight invariant: a waiting call consumes the old request
before re-submitting, a first call starts with no request of its own. -/
theorem swapBuffers_flipinv {s s' : SysState} {t : Nat} {sched : List Nat} {ok : Bool}
    (ht : t < s.outs.length) (hp : FlipInv s) (h : swapBuffers t sched ok s = some s') :
    FlipInv s' := by
  unfold swapBuffers at h
  by_cases hf : getFlipped s t
  · rw [if_pos hf] at h
    cases hW : waitLoop t (getBackFb s t) s sched with
    | none =>
      rw [hW] at h
      exact Option.noConfusion h
    | some s2 =>
      rw [hW] at h
      replace h : (if ok = true then some { outs := s2.outs, inflight := t :: s2.inflight }
          else some s2) = some s' := h
      obtain ⟨hp2, hcnt, hff⟩ := waitLoop_flipinv t (getBackFb s t) sched s s2 hW hp rfl
      by_cases hok : ok = true
      · rw [if_pos hok] at h
        obtain rfl := Option.some.inj h
        intro u
        constructor
        · show (t :: s2.inflight).count u ≤ 1
          rw [List.count_cons]
          by_cases hu : t = u
          · subst hu
            simp [hcnt]
          · simp [hu]
            exact (hp2 u).1
        · intro hfu
          replace hfu : getFlipped s2 u = false := hfu
          by_cases hu : t = u
          · subst hu
            have hcontra : getFlipped s2 t = true := by
              rw [hff t]
              exact hf
            rw [hfu] at hcontra
            exact Bool.noConfusion hcontra
          · show (t :: s2.inflight).count u = 0
            rw [List.count_cons]
            simp [hu]
            exact (hp2 u).2 hfu
      · rw [if_neg hok] at h
        obtain rfl := Option.some.inj h
        exact hp2
  · rw [if_neg hf] at h
    have hfb : getFlipped s t = false := by
      simpa using hf
    have hcnt0 : s.inflight.count t = 0 := (hp t).2 hfb
    obtain ⟨o, ho⟩ : ∃ o, s.outs[t]? = some o := ⟨_, List.getElem?_eq_getElem ht⟩
    rw [ho] at h
    replace h : (if ok = true then
        some { outs := s.outs.set t { o with flipped := true }, inflight := t :: s.inflight }
        else some { outs := s.outs.set t { o with flipped := true }, inflight := s.inflight })
        = some s' := h
    have hft : ∀ (fl : List Nat),
        getFlipped { outs := s.outs.set t { o with flipped := true }, inflight := fl } t
          = true := by
      intro fl
      simp [getFlipped, List.getElem?_set_eq_of_lt _ ht]
    have hfo : ∀ (fl : List Nat) u, u ≠ t →
        getFlipped { outs := s.outs.set t { o with flipped := true }, inflight := fl } u
          = getFlipped s u := by
      intro fl u hu
      simp [getFlipped, List.getElem?_set_ne (fun hh => hu hh.symm)]
    by_cases hok : ok = true
    · rw [if_pos hok] at h
      obtain rfl := Option.some.inj h
      intro u
      constructor
      · show (t :: s.inflight).count u ≤ 1
        rw [List.count_cons]
        by_cases hu : t = u
        · subst hu
          simp [hcnt0]
        · simp [hu]
          exact (hp u).1
      · intro hfu2
        by_cases hu : u = t
        · subst hu
          rw [hft (u :: s.inflight)] at hfu2
          exact Bool.noConfusion hfu2
        · show (t :: s.inflight).count u = 0
          rw [List.count_cons]
          have hgu : getFlipped s u = false := by
            rw [← hfo (t :: s.inflight) u hu]
            exact hfu2
          have htne : t ≠ u := Ne.symm hu
          simp [htne, (hp u).2 hgu]
    · rw [if_neg hok] at h
      obtain rfl := Option.some.inj h
      intro u
      refine ⟨(hp u).1, ?_⟩
      intro hfu2
      by_cases hu : u = t
      · subst hu
        rw [hft s.inflight] at hfu2
        exact Bool.noConfusion hfu2
      · have hgu : getFlipped s u = false := by
          rw [← hfo s.inflight u hu]
          exact hfu2
        exact (hp u).2 hgu

/-- Any property preserved by `swapBuffers` calls on valid outputs survives
one timer tick (the tick only skips outputs or calls `swapBuffers` on indices
of its iteration list). -/
theorem updateLoop_preserves (P : SysState → Prop)
    (hswap : ∀ (s s' : SysState) (t : Nat) (sched : List Nat) (ok : Bool),
      t < s.outs.length → P s → swapBuffers t sched ok s = some s' → P s')
    (flipOk : Nat → Bool) (sched : Nat → List Nat) :
    ∀ (idxs : List Nat) (s s' : SysState),
      (∀ i ∈ idxs, i < s.outs.length) → P s →
      (updateLoop flipOk sched idxs s).2 = some s' → P s' := by
  intro idxs
  induction idxs with
  | nil =>
    intro s s' _ hp h
    replace h : some s = some s' := h
    obtain rfl := Option.some.inj h
    exact hp
  | cons i rest ih =>
    intro s s' hvalid hp h
    rw [updateLoop] at h
    cases hpp : ((s.outs.getD i default).fb.getD (s.outs.getD i default).backFb
        Framebuffer.init).p with
    | none =>
      rw [hpp] at h
      replace h : (updateLoop flipOk sched rest s).2 = some s' := h
      exact ih s s' (fun j hj => hvalid j (List.mem_cons_of_mem i hj)) hp h
    | some addr =>
      rw [hpp] at h
      cases hsw : swapBuffers i (sched i) (flipOk i) s with
      | none =>
        rw [hsw] at h
        replace h : (none : Option SysState) = some s' := h
        exact Option.noConfusion h
      | some s2 =>
        rw [hsw] at h
        replace h : (updateLoop flipOk sched rest s2).2 = some s' := h
        have hp2 : P s2 :=
          hswap s s2 i (sched i) (flipOk i) (hvalid i (List.mem_cons_self i rest)) hp hsw
        have hlen := swapBuffers_length hsw
        exact ih s2 s' (fun j hj => hlen ▸ hvalid j (List.mem_cons_of_mem i hj)) hp2 h

/-- Claim C2: from any start state with no request in flight, every reachable
state keeps the at-most-one-in-flight invariant — each output has at most one
unacknowledged flip request, a `present` call that finds `flipped` set
consumes the previous request's completion inside the wait before submitting
a new request, and an output that never flipped has no request at all. -/
theorem c2_at_most_one_inflight (s₀ s : SysState) (h0 : s₀.inflight = [])
    (h : Reachable s₀ s) : FlipInv s := by
  induction h with
  | refl =>
    intro t
    rw [h0]
    simp
  | step _hr hstep ih =>
    cases hstep with
    | swap t sched ok ht hsw =>
      exact swapBuffers_flipinv ht ih hsw
    | tick flipOk sched ws hup =>
      rename_i s1 s2
      have h2 : (updateLoop flipOk sched (List.range s1.outs.length) s1).2 = some s2 := by
        rw [show updateLoop flipOk sched (List.range s1.outs.length) s1
            = update flipOk sched s1 from rfl, hup]
      exact updateLoop_preserves FlipInv
        (fun s s' t sc ok ht hp hsw => swapBuffers_flipinv ht hp hsw) flipOk sched
        (List.range s1.outs.length) s1 s2
        (fun i hi => List.mem_range.mp hi) ih h2

/-- Claim C2 witness: the invariant holds after one `present` call on the
fresh single-output system. -/
theorem c2_at_most_one_inflight_witness : FlipInv (oneOutputSteady 0) :=
  c2_at_most_one_inflight (oneOutputInit 0) (oneOutputSteady 0) rfl
    (Reachable.step (Reachable.refl _) (Step.swap 0 [0] true (by decide) rfl))

/-- An element found by `getElem?` is a member of the list. -/
theorem mem_of_getElem?_some {α : Type} {l : List α} {i : Nat} {a : α}
    (h : l[i]? = some a) : a ∈ l := by
  have hlt := lt_of_getElem?_some h
  rw [List.getElem?_eq_getElem hlt] at h
  exact Option.some.inj h ▸ List.getElem_mem hlt

/-- Handling a completion event preserves the per-output slot bounds: the
rotated output gets `backFb = (backFb + 1) % 2 < 2` and its slot array is
untouched. -/
theorem handleEvent_slotbounds {s s' : SysState} {e : Nat}
    (h : handleEvent s e = some s')
    (hp : ∀ o ∈ s.outs, o.backFb < BUFFER_COUNT ∧ o.fb.length = BUFFER_COUNT) :
    ∀ o ∈ s'.outs, o.backFb < BUFFER_COUNT ∧ o.fb.length = BUFFER_COUNT := by
  obtain ⟨o, _, ho, rfl⟩ := handleEvent_some h
  intro u hu
  rcases List.mem_or_eq_of_mem_set hu with hmem | rfl
  · exact hp u hmem
  · have hom := hp o (mem_of_getElem?_some ho)
    refine ⟨Nat.mod_lt _ (by decide), hom.2⟩

/-- One `swapBuffers` call preserves the per-output slot bounds. -/
theorem swapBuffers_slotbounds {s s' : SysState} {t : Nat} {sched : List Nat} {ok : Bool}
    (hp : ∀ o ∈ s.outs, o.backFb < BUFFER_COUNT ∧ o.fb.length = BUFFER_COUNT)
    (h : swapBuffers t sched ok s = some s') :
    ∀ o ∈ s'.outs, o.backFb < BUFFER_COUNT ∧ o.fb.length = BUFFER_COUNT := by
  unfold swapBuffers at h
  by_cases hf : getFlipped s t
  · rw [if_pos hf] at h
    cases hW : waitLoop t (getBackFb s t) s sched with
    | none =>
      rw [hW] at h
      exact Option.noConfusion h
    | some s2 =>
      rw [hW] at h
      replace h : (if ok = true then some { outs := s2.outs, inflight := t :: s2.inflight }
          else some s2) = some s' := h
      have hp2 : ∀ o ∈ s2.outs, o.backFb < BUFFER_COUNT ∧ o.fb.length = BUFFER_COUNT :=
        waitLoop_preserves
          (fun u => ∀ o ∈ u.outs, o.backFb < BUFFER_COUNT ∧ o.fb.length = BUFFER_COUNT)
          (fun _ _ _ hE hq => handleEvent_slotbounds hE hq) t (getBackFb s t) sched s s2 hp hW
      by_cases hok : ok = true
      · rw [if_pos hok] at h
        obtain rfl := Option.some.inj h
        exact hp2
      · rw [if_neg hok] at h
        obtain rfl := Option.some.inj h
        exact hp2
  · rw [if_neg hf] at h
    cases ho : s.outs[t]? with
    | none =>
      rw [ho] at h
      replace h : (if ok = true then some { outs := s.outs, inflight := t :: s.inflight }
          else some s) = some s' := h
      by_cases hok : ok = true
      · rw [if_pos hok] at h
        obtain rfl := Option.some.inj h
        exact hp
      · rw [if_neg hok] at h
        obtain rfl := Option.some.inj h
        exact hp
    | some o =>
      rw [ho] at h
      replace h : (if ok = true then
          some { outs := s.outs.set t { o with flipped := true }, inflight := t :: s.inflight }
          else some { outs := s.outs.set t { o with flipped := true }, inflight := s.inflight })
          = some s' := h
      have hset : ∀ u ∈ s.outs.set t { o with flipped := true },
          u.backFb < BUFFER_COUNT ∧ u.fb.length = BUFFER_COUNT := by
        intro u hu
        rcases List.mem_or_eq_of_mem_set hu with hmem | rfl
        · exact hp u hmem
        · exact hp o (mem_of_getElem?_some ho)
      by_cases hok : ok = true
      · rw [if_pos hok] at h
        obtain rfl := Option.some.inj h
        exact hset
      · rw [if_neg hok] at h
        obtain rfl := Option.some.inj h
        exact hset

/-- The inner allocation loop never touches `backFb` and never changes the
length of the slot array. -/
theorem createFbsAux_shape (kr : Nat → KernelCreateResults) :
    ∀ (n i : Nat) (o : Output),
      ((createFbsAux kr i n o).2).backFb = o.backFb
      ∧ ((createFbsAux kr i n o).2).fb.length = o.fb.length := by
  intro n
  induction n with
  | zero =>
    intro i o
    exact ⟨rfl, rfl⟩
  | succ n ih =>
    intro i o
    have hred : createFbsAux kr i (n + 1) o
        = if (createFramebuffer (kr i) (o.fb.getD i Framebuffer.init)).1 = true then
            createFbsAux kr (i + 1) n
              { o with fb := o.fb.set i (createFramebuffer (kr i) (o.fb.getD i Framebuffer.init)).2 }
          else (false, { o with fb := o.fb.set i (createFramebuffer (kr i) (o.fb.getD i Framebuffer.init)).2 }) := by
      rw [createFbsAux]
    rw [hred]
    by_cases hr : (createFramebuffer (kr i) (o.fb.getD i Framebuffer.init)).1 = true
    · rw [if_pos hr]
      have hi := ih (i + 1)
        { o with fb := o.fb.set i (createFramebuffer (kr i) (o.fb.getD i Framebuffer.init)).2 }
      refine ⟨hi.1, ?_⟩
      rw [hi.2]
      simp
    · rw [if_neg hr]
      simp

/-- The allocation loop over outputs preserves the per-output slot bounds. -/
theorem createFramebuffersGo_slotbounds (kr : Nat → Nat → KernelCreateResults) :
    ∀ (idxs : List Nat) (outs : List Output),
      (∀ o ∈ outs, o.backFb < BUFFER_COUNT ∧ o.fb.length = BUFFER_COUNT) →
      ∀ o ∈ createFramebuffersGo kr idxs outs,
        o.backFb < BUFFER_COUNT ∧ o.fb.length = BUFFER_COUNT := by
  intro idxs
  induction idxs with
  | nil =>
    intro outs hp
    exact hp
  | cons oi rest ih =>
    intro outs hp
    rw [createFramebuffersGo]
    intro u hu
    cases ho : outs[oi]? with
    | none =>
      rw [ho] at hu
      replace hu : u ∈ outs := hu
      exact hp u hu
    | some o =>
      rw [ho] at hu
      replace hu : u ∈ (if (createFbsForOutput (kr oi) o).1 = true then
          createFramebuffersGo kr rest
            (outs.set oi { (createFbsForOutput (kr oi) o).2 with backFb := 0, flipped := false })
          else outs.set oi (createFbsForOutput (kr oi) o).2) := hu
      have hO := hp o (mem_of_getElem?_some ho)
      have hshape := createFbsAux_shape (kr oi) BUFFER_COUNT 0 o
      by_cases hr : (createFbsForOutput (kr oi) o).1 = true
      · rw [if_pos hr] at hu
        refine ih _ ?_ u hu
        intro v hv
        rcases List.mem_or_eq_of_mem_set hv with hmem | rfl
        · exact hp v hmem
        · constructor
          · show (0 : Nat) < BUFFER_COUNT
            decide
          · exact hshape.2.trans hO.2
      · rw [if_neg hr] at hu
        rcases List.mem_or_eq_of_mem_set hu with hmem | rfl
        · exact hp u hmem
        · exact ⟨hshape.1.trans_lt hO.1, hshape.2.trans hO.2⟩

/-- The mode-setting loop preserves the per-output slot bounds. -/
theorem setModeGo_slotbounds (crtcOk : Nat → Bool) :
    ∀ (idxs : List Nat) (outs : List Output),
      (∀ o ∈ outs, o.backFb < BUFFER_COUNT ∧ o.fb.length = BUFFER_COUNT) →
      ∀ o ∈ setModeGo crtcOk idxs outs,
        o.backFb < BUFFER_COUNT ∧ o.fb.length = BUFFER_COUNT := by
  intro idxs
  induction idxs with
  | nil =>
    intro outs hp
    exact hp
  | cons oi rest ih =>
    intro outs hp
    rw [setModeGo]
    intro u hu
    cases ho : outs[oi]? with
    | none =>
      rw [ho] at hu
      replace hu : u ∈ outs := hu
      exact hp u hu
    | some o =>
      rw [ho] at hu
      replace hu : u ∈ (if crtcOk oi = true then
          setModeGo crtcOk rest
            (outs.set oi { o with kmsOutput := { o.kmsOutput with mode_set := true } })
          else outs) := hu
      by_cases hc : crtcOk oi = true
      · rw [if_pos hc] at hu
        refine ih _ ?_ u hu
        intro v hv
        rcases List.mem_or_eq_of_mem_set hv with hmem | rfl
        · exact hp v hmem
        · exact hp o (mem_of_getElem?_some ho)
      · rw [if_neg hc] at hu
        exact hp u hu

/-- Claim C10: in every state reachable from the renderer constructor — for
any open result, discovered outputs, kernel replies and mode-set results —
every output's `backFb` is a valid index below `BUFFER_COUNT = 2` and below
the length of its slot array, so `output.fb[output.backFb]` is in bounds:
it starts at 0, only `pageFlipHandler` advances it modulo 2, and nothing else
writes it. -/
theorem c10_backfb_in_bounds (openOk : Bool) (descs : List KmsOutput)
    (kr : Nat → Nat → KernelCreateResults) (crtcOk : Nat → Bool) (s : SysState)
    (h : Reachable (rendererCtor openOk descs kr crtcOk).state s) : SlotIndexOk s := by
  have hstrong : ∀ o ∈ s.outs, o.backFb < BUFFER_COUNT ∧ o.fb.length = BUFFER_COUNT := by
    induction h with
    | refl =>
      unfold rendererCtor
      by_cases hopen : openOk = true
      · rw [if_pos hopen]
        show ∀ o ∈ setModeGo crtcOk _ (createFramebuffers kr (descs.map mkOutput)), _
        apply setModeGo_slotbounds
        unfold createFramebuffers
        apply createFramebuffersGo_slotbounds
        intro o hmem
        obtain ⟨d, _, rfl⟩ := List.mem_map.mp hmem
        refine ⟨?_, rfl⟩
        show (0 : Nat) < BUFFER_COUNT
        decide
      · rw [if_neg hopen]
        intro o hmem
        exact absurd hmem (List.not_mem_nil o)
    | step _hr hstep ih =>
      cases hstep with
      | swap t sched ok ht hsw =>
        exact swapBuffers_slotbounds ih hsw
      | tick flipOk sched ws hup =>
        rename_i s1 s2
        have h2 : (updateLoop flipOk sched (List.range s1.outs.length) s1).2 = some s2 := by
          rw [show updateLoop flipOk sched (List.range s1.outs.length) s1
              = update flipOk sched s1 from rfl, hup]
        exact updateLoop_preserves
          (fun u => ∀ o ∈ u.outs, o.backFb < BUFFER_COUNT ∧ o.fb.length = BUFFER_COUNT)
          (fun s s' t sc ok _ht hp hsw => swapBuffers_slotbounds hp hsw) flipOk sched
          (List.range s1.outs.length) s1 s2 (fun i hi => List.mem_range.mp hi) ih h2
  intro o hmem
  obtain ⟨h1, h2⟩ := hstrong o hmem
  exact ⟨h1, h2 ▸ h1⟩

/-- Claim C10 witness: the slot-index bound holds in the constructor state of
a one-output renderer. -/
theorem c10_backfb_in_bounds_witness :
    SlotIndexOk (rendererCtor true [demoKms] (fun _ _ => goodK) (fun _ => true)).state :=
  c10_backfb_in_bounds true [demoKms] (fun _ _ => goodK) (fun _ => true) _
    (Reachable.refl _)

end DrmDumbFb
